import Mathlib

/-!
Verification of the voter-register OCR pipeline (scripts/ocr_page_fast.py,
scripts/ocr_page_python.py, scripts/parse_ocr.py).

The Python sources are shallowly embedded as executable Lean definitions:
pure functions become Lean functions, the external recognition engine is an
oracle parameter, machine integers are `Nat`/`Int`, and fallible operations
return `Option`.  The definitions below are translated from the source files;
line references are given in the doc comments.
-/

set_option maxRecDepth 16384

namespace S1R

/-! ### Grid geometry (ocr_page_fast.py lines 26-33, ocr_page_python.py lines 21-28) -/

def GRID_COLS : Nat := 3
def GRID_ROWS : Nat := 10
def RECORD_WIDTH : Nat := 298
def RECORD_HEIGHT : Nat := 121
def START_X : Nat := 22
def START_Y : Nat := 42
def GAP_X : Nat := 5
def GAP_Y : Nat := 5

/-- An axis-aligned rectangle on the page, in pixels. -/
structure Rect where
  x : Nat
  y : Nat
  w : Nat
  h : Nat
deriving DecidableEq, Repr

/-- Python `f"{record_num:02d}"` for the two-digit record id
(ocr_page_fast.py line 187, ocr_page_python.py line 44); faithful for
`n < 100`, which covers the whole grid. -/
def recordIdStr (n : Nat) : String :=
  if n < 10 then "0" ++ toString n else toString n

/-- Tile rectangle for grid position `(row, col)`
(ocr_page_fast.py lines 190-191, ocr_page_python.py lines 47-48). -/
def tileRect (row col : Nat) : Rect :=
  { x := START_X + col * (RECORD_WIDTH + GAP_X)
    y := START_Y + row * (RECORD_HEIGHT + GAP_Y)
    w := RECORD_WIDTH
    h := RECORD_HEIGHT }

/-- Row-major enumeration `for row in range(GRID_ROWS): for col in range(GRID_COLS)`
(ocr_page_fast.py lines 184-185). -/
def gridPositions : List (Nat × Nat) :=
  (List.range GRID_ROWS).flatMap fun r => (List.range GRID_COLS).map fun c => (r, c)

/-- Bounds check: the tile is kept unless `x + RECORD_WIDTH > w or y + RECORD_HEIGHT > h`
(ocr_page_fast.py line 194, ocr_page_python.py line 51). -/
def tileInBounds (w h row col : Nat) : Bool :=
  decide (START_X + col * (RECORD_WIDTH + GAP_X) + RECORD_WIDTH ≤ w) &&
  decide (START_Y + row * (RECORD_HEIGHT + GAP_Y) + RECORD_HEIGHT ≤ h)

/-- The grid segmenter: ordered `(record_id, rectangle)` pairs for every
in-bounds tile, ids derived from the grid position and never renumbered
(ocr_page_fast.py lines 184-199, ocr_page_python.py lines 41-57). -/
def segmentTiles (w h : Nat) : List (String × Rect) :=
  (gridPositions.filter fun p => tileInBounds w h p.1 p.2).map
    fun p => (recordIdStr (p.1 * GRID_COLS + p.2), tileRect p.1 p.2)

/-- Interval-arithmetic disjointness of two rectangles. -/
def rectDisjoint (a b : Rect) : Bool :=
  decide (a.x + a.w ≤ b.x) || decide (b.x + b.w ≤ a.x) ||
  decide (a.y + a.h ≤ b.y) || decide (b.y + b.h ≤ a.y)

/-- Point membership in a rectangle. -/
def pointInRect (r : Rect) (px py : Nat) : Prop :=
  r.x ≤ px ∧ px < r.x + r.w ∧ r.y ≤ py ∧ py < r.y + r.h

theorem rectDisjoint_no_common_point {a b : Rect} (h : rectDisjoint a b = true)
    (px py : Nat) : ¬(pointInRect a px py ∧ pointInRect b px py) := by
  rintro ⟨⟨ha1, ha2, ha3, ha4⟩, ⟨hb1, hb2, hb3, hb4⟩⟩
  simp only [rectDisjoint, Bool.or_eq_true, decide_eq_true_eq] at h
  omega

theorem mem_gridPositions {r c : Nat} :
    (r, c) ∈ gridPositions ↔ r < GRID_ROWS ∧ c < GRID_COLS := by
  simp only [gridPositions, List.mem_flatMap, List.mem_map, List.mem_range]
  constructor
  · rintro ⟨a, ha, b, hb, heq⟩
    cases heq
    exact ⟨ha, hb⟩
  · rintro ⟨hr, hc⟩
    exact ⟨r, hr, c, hc, rfl⟩

theorem gridPositions_bounds :
    ∀ p ∈ gridPositions, p.1 < GRID_ROWS ∧ p.2 < GRID_COLS := by
  decide

/-- With the full grid footprint every tile is in bounds. -/
theorem filter_full_footprint :
    gridPositions.filter (fun p => tileInBounds 926 1297 p.1 p.2) = gridPositions := by
  decide

theorem tileInBounds_mono {w h w' h' : Nat} (hw : w ≤ w') (hh : h ≤ h')
    {r c : Nat} (hb : tileInBounds w h r c = true) : tileInBounds w' h' r c = true := by
  simp only [tileInBounds, Bool.and_eq_true, decide_eq_true_eq] at hb ⊢
  omega

theorem full_footprint_bounds :
    ∀ p ∈ gridPositions, tileInBounds 926 1297 p.1 p.2 = true := by
  decide

theorem segmentTiles_mem_iff {w h r c : Nat} (hr : r < GRID_ROWS) (hc : c < GRID_COLS) :
    (recordIdStr (r * GRID_COLS + c), tileRect r c) ∈ segmentTiles w h ↔
      tileInBounds w h r c = true := by
  simp only [segmentTiles, List.mem_map, List.mem_filter]
  constructor
  · rintro ⟨⟨r', c'⟩, ⟨hmem, hb⟩, heq⟩
    have hrect : tileRect r' c' = tileRect r c := congrArg Prod.snd heq
    have hx : (tileRect r' c').x = (tileRect r c).x := congrArg Rect.x hrect
    have hy : (tileRect r' c').y = (tileRect r c).y := congrArg Rect.y hrect
    obtain ⟨hr', hc'⟩ := gridPositions_bounds _ hmem
    simp only [tileRect] at hx hy
    simp only [GRID_ROWS, GRID_COLS] at hr' hc' hr hc
    simp only [RECORD_WIDTH, RECORD_HEIGHT, START_X, START_Y, GAP_X, GAP_Y] at hx hy
    have hcc : c' = c := by omega
    have hrr : r' = r := by omega
    subst hcc; subst hrr
    exact hb
  · intro hb
    exact ⟨(r, c), ⟨mem_gridPositions.mpr ⟨hr, hc⟩, hb⟩, rfl⟩

theorem segmentTiles_full {w h : Nat} (hw : 926 ≤ w) (hh : 1297 ≤ h) :
    segmentTiles w h = gridPositions.map
      (fun p => (recordIdStr (p.1 * GRID_COLS + p.2), tileRect p.1 p.2)) := by
  unfold segmentTiles
  congr 1
  exact List.filter_eq_self.mpr fun p hp =>
    tileInBounds_mono hw hh (full_footprint_bounds p hp)

theorem segmentTiles_pairwise_bool :
    (gridPositions.map
      (fun p => (recordIdStr (p.1 * GRID_COLS + p.2), tileRect p.1 p.2))).Pairwise
      (fun a b => rectDisjoint a.2 b.2 = true) := by
  decide

/-- C1: the segmenter enumerates grid positions row-major, computes each tile
rectangle by the affine formulas with the fixed constants, assigns the
zero-padded id `row*3+col`, skips a tile exactly when it exceeds the page
bounds (position membership is an iff, ids are never renumbered and keep the
full-grid row-major order), and on a page at least 926x1297 produces exactly
30 tiles with pairwise-disjoint rectangles whose ids are 00..29. -/
theorem c1_grid_segmentation :
    (∀ w h r c, r < GRID_ROWS → c < GRID_COLS →
      ((recordIdStr (r * GRID_COLS + c), tileRect r c) ∈ segmentTiles w h ↔
        (START_X + c * (RECORD_WIDTH + GAP_X) + RECORD_WIDTH ≤ w ∧
         START_Y + r * (RECORD_HEIGHT + GAP_Y) + RECORD_HEIGHT ≤ h)))
    ∧ (∀ w h, (segmentTiles w h).Sublist (segmentTiles 926 1297))
    ∧ (∀ w h, 926 ≤ w → 1297 ≤ h →
        (segmentTiles w h).length = 30 ∧
        (segmentTiles w h).map Prod.fst = (List.range 30).map recordIdStr ∧
        (segmentTiles w h).Pairwise
          (fun a b => ∀ px py, ¬(pointInRect a.2 px py ∧ pointInRect b.2 px py))) := by
  refine ⟨?_, ?_, ?_⟩
  · intro w h r c hr hc
    rw [segmentTiles_mem_iff hr hc]
    simp only [tileInBounds, Bool.and_eq_true, decide_eq_true_eq]
  · intro w h
    rw [segmentTiles_full (le_refl 926) (le_refl 1297)]
    exact (List.filter_sublist _).map _
  · intro w h hw hh
    rw [segmentTiles_full hw hh]
    refine ⟨by decide, by decide, ?_⟩
    exact segmentTiles_pairwise_bool.imp fun hab _ _ hp =>
      rectDisjoint_no_common_point hab _ _ hp

/-- Witness for C1 at a concrete page: tile 5 = (row 1, col 2) is present on a
full 926x1297 page, and that page yields all 30 tiles. -/
theorem c1_grid_segmentation_witness :
    ((recordIdStr 5, tileRect 1 2) ∈ segmentTiles 926 1297) ∧
      (segmentTiles 926 1297).length = 30 := by
  constructor
  · exact (c1_grid_segmentation.1 926 1297 1 2 (by decide) (by decide)).mpr (by decide)
  · exact (c1_grid_segmentation.2.2 926 1297 (by decide) (by decide)).1

/-! ### Text cleaning (parse_ocr.py lines 55-61, `VoterParser.clean_text`)

`clean_text` performs, in order: `re.sub(r"[ \t]+", " ", text)`,
`re.sub(r"\n{3,}", "\n\n", text)`, `text.strip()`.  We embed the three
stages as list transformations.  Whitespace sets model the ASCII portion of
Python's `\s` and `str.strip()` (the inputs of interest contain no exotic
Unicode space characters). -/

/-- The character class `[ \t]`. -/
def isSC (c : Char) : Bool := c = ' ' || c = '\t'

/-- ASCII whitespace as recognized by Python `\s` and `str.strip()`. -/
def isWsCh (c : Char) : Bool :=
  c = ' ' || c = '\t' || c = '\n' || c = '\r' || c = '\x0B' || c = '\x0C'

/-- `re.sub(r"[ \t]+", " ", ·)`: every maximal run of spaces/tabs becomes a
single space.  The run is collapsed pairwise: a space/tab directly followed by
another is dropped; the last of the run is emitted as `' '`. -/
def collapseSpaceRuns : List Char → List Char
  | [] => []
  | [c] => if isSC c then [' '] else [c]
  | c1 :: c2 :: rest =>
    if isSC c1 && isSC c2 then collapseSpaceRuns (c2 :: rest)
    else (if isSC c1 then ' ' else c1) :: collapseSpaceRuns (c2 :: rest)

/-- `re.sub(r"\n{3,}", "\n\n", ·)`: every maximal run of three or more
newlines becomes exactly two (a newline followed by at least two more is
dropped, keeping the final two of the run). -/
def collapseNewlineRuns : List Char → List Char
  | c1 :: c2 :: c3 :: rest =>
    if c1 = '\n' && c2 = '\n' && c3 = '\n' then collapseNewlineRuns (c2 :: c3 :: rest)
    else c1 :: collapseNewlineRuns (c2 :: c3 :: rest)
  | l => l

/-- Remove trailing whitespace (the right half of `str.strip()`). -/
def rstripChars : List Char → List Char
  | [] => []
  | c :: rest =>
    if (rstripChars rest).isEmpty && isWsCh c then [] else c :: rstripChars rest

/-- Python `str.strip()`. -/
def pyStripChars (l : List Char) : List Char := rstripChars (l.dropWhile isWsCh)

/-- `str.strip()` on strings (used for OCR outputs throughout the sources). -/
def stripStr (s : String) : String := String.mk (pyStripChars s.data)

/-- The three stages of `clean_text` at the character-list level. -/
def cleanList (l : List Char) : List Char :=
  pyStripChars (collapseNewlineRuns (collapseSpaceRuns l))

/-- `VoterParser.clean_text` (parse_ocr.py lines 55-61). -/
def clean_text (s : String) : String :=
  String.mk (cleanList s.data)

/-! Normal forms of cleaned text: no tab, no two adjacent spaces/tabs, no
three adjacent newlines.  Each predicate is a decidable scan. -/

def noTab (l : List Char) : Bool := l.all (fun c => !(c = '\t'))

def noSSPair : List Char → Bool
  | c1 :: c2 :: rest => !(isSC c1 && isSC c2) && noSSPair (c2 :: rest)
  | _ => true

def noTripleNL : List Char → Bool
  | c1 :: c2 :: c3 :: rest =>
    !(c1 = '\n' && c2 = '\n' && c3 = '\n') && noTripleNL (c2 :: c3 :: rest)
  | _ => true

theorem noSSPair_cons_of (c1 : Char) {l : List Char} (h : noSSPair l = true)
    (hhd : ∀ c2 m, l = c2 :: m → (isSC c1 && isSC c2) = false) :
    noSSPair (c1 :: l) = true := by
  cases l with
  | nil => rfl
  | cons c2 m =>
    simp only [noSSPair, Bool.and_eq_true, Bool.not_eq_true']
    exact ⟨hhd c2 m rfl, h⟩

theorem noTripleNL_cons_of (c1 : Char) {l : List Char} (h : noTripleNL l = true)
    (hhd : ∀ c2 c3 m, l = c2 :: c3 :: m →
      (decide (c1 = '\n') && decide (c2 = '\n') && decide (c3 = '\n')) = false) :
    noTripleNL (c1 :: l) = true := by
  cases l with
  | nil => rfl
  | cons c2 m =>
    cases m with
    | nil => rfl
    | cons c3 m' =>
      simp only [noTripleNL, Bool.and_eq_true, Bool.not_eq_true']
      refine ⟨?_, h⟩
      simpa using hhd c2 c3 m' rfl

theorem noSSPair_tail {c : Char} {l : List Char} (h : noSSPair (c :: l) = true) :
    noSSPair l = true := by
  cases l with
  | nil => rfl
  | cons d rest =>
    simp only [noSSPair, Bool.and_eq_true] at h
    exact h.2

theorem noTripleNL_tail {c : Char} {l : List Char} (h : noTripleNL (c :: l) = true) :
    noTripleNL l = true := by
  cases l with
  | nil => rfl
  | cons d rest =>
    cases rest with
    | nil => rfl
    | cons e rest' =>
      simp only [noTripleNL, Bool.and_eq_true] at h
      exact h.2

theorem noSSPair_append_left : ∀ (l m : List Char), noSSPair (l ++ m) = true → noSSPair l = true
  | [], _, _ => rfl
  | [_], _, _ => rfl
  | c1 :: c2 :: rest, m, h => by
    simp only [List.cons_append, noSSPair, Bool.and_eq_true] at h
    have ih := noSSPair_append_left (c2 :: rest) m (by simpa [List.cons_append] using h.2)
    simp only [noSSPair, Bool.and_eq_true]
    exact ⟨h.1, ih⟩

theorem noTripleNL_append_left :
    ∀ (l m : List Char), noTripleNL (l ++ m) = true → noTripleNL l = true
  | [], _, _ => rfl
  | [_], _, _ => rfl
  | [_, _], _, _ => rfl
  | c1 :: c2 :: c3 :: rest, m, h => by
    simp only [List.cons_append, noTripleNL, Bool.and_eq_true] at h
    have ih := noTripleNL_append_left (c2 :: c3 :: rest) m
      (by simpa [List.cons_append] using h.2)
    simp only [noTripleNL, Bool.and_eq_true]
    exact ⟨h.1, ih⟩

theorem noSSPair_append_right :
    ∀ (m l : List Char), noSSPair (m ++ l) = true → noSSPair l = true
  | [], _, h => h
  | c :: m', l, h => noSSPair_append_right m' l (noSSPair_tail (by simpa using h))

theorem noTripleNL_append_right :
    ∀ (m l : List Char), noTripleNL (m ++ l) = true → noTripleNL l = true
  | [], _, h => h
  | c :: m', l, h => noTripleNL_append_right m' l (noTripleNL_tail (by simpa using h))

theorem noTab_append_left {l m : List Char} (h : noTab (l ++ m) = true) : noTab l = true := by
  simp only [noTab, List.all_eq_true, List.mem_append] at h ⊢
  exact fun c hc => h c (Or.inl hc)

theorem noTab_append_right {m l : List Char} (h : noTab (m ++ l) = true) : noTab l = true := by
  simp only [noTab, List.all_eq_true, List.mem_append] at h ⊢
  exact fun c hc => h c (Or.inr hc)

theorem not_tab_of_not_sc {c : Char} (h : isSC c = false) : ¬c = '\t' := by
  intro hc
  rw [hc] at h
  exact absurd h (by decide)

theorem sc_space_of_noTab {c : Char} (h : isSC c = true) (ht : ¬c = '\t') : c = ' ' := by
  simp only [isSC, Bool.or_eq_true, decide_eq_true_eq] at h
  rcases h with h | h
  · exact h
  · exact absurd h ht

theorem noTab_cons {c : Char} {l : List Char} :
    noTab (c :: l) = true ↔ (¬c = '\t' ∧ noTab l = true) := by
  simp [noTab]

theorem collapseSpaceRuns_head :
    ∀ (c : Char) (l : List Char),
      ∃ d m, collapseSpaceRuns (c :: l) = d :: m ∧ isSC d = isSC c
  | c, [] => by
    by_cases h : isSC c = true
    · refine ⟨' ', [], by simp [collapseSpaceRuns, h], by rw [h]; decide⟩
    · exact ⟨c, [], by simp [collapseSpaceRuns, Bool.eq_false_iff.mpr h], rfl⟩
  | c, c2 :: rest => by
    obtain ⟨d, m, hdm, hsc⟩ := collapseSpaceRuns_head c2 rest
    by_cases h12 : (isSC c && isSC c2) = true
    · refine ⟨d, m, by simp [collapseSpaceRuns, h12, hdm], ?_⟩
      have h' := (Bool.and_eq_true _ _).mp h12
      rw [hsc, h'.1, h'.2]
    · by_cases h1 : isSC c = true
      · have h2 : isSC c2 = false := by
          cases hsc2 : isSC c2
          · rfl
          · exact absurd (by rw [h1, hsc2]; decide) h12
        exact ⟨' ', collapseSpaceRuns (c2 :: rest),
          by simp [collapseSpaceRuns, h1, h2], by rw [h1]; decide⟩
      · exact ⟨c, collapseSpaceRuns (c2 :: rest),
          by simp [collapseSpaceRuns, Bool.eq_false_iff.mpr h12, Bool.eq_false_iff.mpr h1],
          rfl⟩

theorem collapseSpaceRuns_noTab : ∀ (l : List Char), noTab (collapseSpaceRuns l) = true
  | [] => rfl
  | [c] => by
    by_cases h : isSC c = true
    · simp [collapseSpaceRuns, h, noTab]
    · have hc := not_tab_of_not_sc (Bool.eq_false_iff.mpr h)
      simp [collapseSpaceRuns, Bool.eq_false_iff.mpr h, noTab, hc]
  | c1 :: c2 :: rest => by
    have ih := collapseSpaceRuns_noTab (c2 :: rest)
    by_cases h12 : (isSC c1 && isSC c2) = true
    · simpa [collapseSpaceRuns, h12] using ih
    · simp only [collapseSpaceRuns, Bool.eq_false_iff.mpr h12, Bool.false_eq_true,
        if_false]
      rw [noTab_cons]
      refine ⟨?_, ih⟩
      by_cases h1 : isSC c1 = true
      · simp [h1]
      · simp only [Bool.eq_false_iff.mpr h1, Bool.false_eq_true, if_false]
        exact not_tab_of_not_sc (Bool.eq_false_iff.mpr h1)

theorem collapseSpaceRuns_noSS : ∀ (l : List Char), noSSPair (collapseSpaceRuns l) = true
  | [] => rfl
  | [c] => by
    by_cases h : isSC c = true
    · simp [collapseSpaceRuns, h, noSSPair]
    · simp [collapseSpaceRuns, Bool.eq_false_iff.mpr h, noSSPair]
  | c1 :: c2 :: rest => by
    have ih := collapseSpaceRuns_noSS (c2 :: rest)
    by_cases h12 : (isSC c1 && isSC c2) = true
    · simpa [collapseSpaceRuns, h12] using ih
    · simp only [collapseSpaceRuns, Bool.eq_false_iff.mpr h12, Bool.false_eq_true,
        if_false]
      obtain ⟨d, m, hdm, hsc⟩ := collapseSpaceRuns_head c2 rest
      rw [hdm]
      rw [hdm] at ih
      refine noSSPair_cons_of _ ih ?_
      rintro c2' m' heq
      cases heq
      by_cases h1 : isSC c1 = true
      · have h2 : isSC c2 = false := by
          cases hsc2 : isSC c2
          · rfl
          · exact absurd (by rw [h1, hsc2]; decide) h12
        simp [h1, hsc, h2]
      · simp [Bool.eq_false_iff.mpr h1]

theorem collapseSpaceRuns_id :
    ∀ (l : List Char), noTab l = true → noSSPair l = true → collapseSpaceRuns l = l
  | [], _, _ => rfl
  | [c], ht, _ => by
    by_cases h : isSC c = true
    · have hsp := sc_space_of_noTab h (noTab_cons.mp ht).1
      simp [collapseSpaceRuns, h, hsp]
    · simp [collapseSpaceRuns, Bool.eq_false_iff.mpr h]
  | c1 :: c2 :: rest, ht, hss => by
    have h12 : (isSC c1 && isSC c2) = false := by
      simp only [noSSPair, Bool.and_eq_true, Bool.not_eq_true'] at hss
      exact hss.1
    have ih := collapseSpaceRuns_id (c2 :: rest) (noTab_cons.mp ht).2 (noSSPair_tail hss)
    simp only [collapseSpaceRuns, h12, Bool.false_eq_true, if_false, ih]
    by_cases h1 : isSC c1 = true
    · have hsp := sc_space_of_noTab h1 (noTab_cons.mp ht).1
      simp [h1, hsp]
    · simp [Bool.eq_false_iff.mpr h1]

theorem collapseNewlineRuns_sublist : ∀ (l : List Char), (collapseNewlineRuns l).Sublist l
  | [] => List.Sublist.refl _
  | [_] => List.Sublist.refl _
  | [_, _] => List.Sublist.refl _
  | c1 :: c2 :: c3 :: rest => by
    by_cases h : (decide (c1 = '\n') && decide (c2 = '\n') && decide (c3 = '\n')) = true
    · simp only [collapseNewlineRuns]
      rw [if_pos h]
      exact (collapseNewlineRuns_sublist (c2 :: c3 :: rest)).trans
        (List.sublist_cons_self _ _)
    · simp only [collapseNewlineRuns]
      rw [if_neg h]
      exact (collapseNewlineRuns_sublist (c2 :: c3 :: rest)).cons₂ c1

theorem collapseNewlineRuns_head :
    ∀ (c : Char) (l : List Char), ∃ m, collapseNewlineRuns (c :: l) = c :: m
  | c, [] => ⟨[], rfl⟩
  | c, [d] => ⟨[d], rfl⟩
  | c, c2 :: c3 :: rest => by
    by_cases h : (decide (c = '\n') && decide (c2 = '\n') && decide (c3 = '\n')) = true
    · obtain ⟨m, hm⟩ := collapseNewlineRuns_head c2 (c3 :: rest)
      have hcs : c = '\n' ∧ c2 = '\n' := by
        simp only [Bool.and_eq_true, decide_eq_true_eq] at h
        exact ⟨h.1.1, h.1.2⟩
      refine ⟨m, ?_⟩
      simp only [collapseNewlineRuns]
      rw [if_pos h, hm, hcs.1, hcs.2]
    · refine ⟨collapseNewlineRuns (c2 :: c3 :: rest), ?_⟩
      simp only [collapseNewlineRuns]
      rw [if_neg h]

theorem collapseNewlineRuns_head2 {c3 : Char} (c2 : Char) (rest : List Char)
    (h3 : ¬c3 = '\n') :
    ∃ m, collapseNewlineRuns (c2 :: c3 :: rest) = c2 :: c3 :: m := by
  cases rest with
  | nil => exact ⟨[], rfl⟩
  | cons r rest' =>
    obtain ⟨m, hm⟩ := collapseNewlineRuns_head c3 (r :: rest')
    refine ⟨m, ?_⟩
    simp only [collapseNewlineRuns]
    rw [if_neg (by simp [h3]), hm]

theorem collapseNewlineRuns_id :
    ∀ (l : List Char), noTripleNL l = true → collapseNewlineRuns l = l
  | [], _ => rfl
  | [_], _ => rfl
  | [_, _], _ => rfl
  | c1 :: c2 :: c3 :: rest, h => by
    simp only [noTripleNL, Bool.and_eq_true, Bool.not_eq_true'] at h
    have ih := collapseNewlineRuns_id (c2 :: c3 :: rest) h.2
    simp only [collapseNewlineRuns]
    rw [if_neg (by simp [h.1]), ih]

theorem collapseNewlineRuns_noTriple :
    ∀ (l : List Char), noTripleNL (collapseNewlineRuns l) = true
  | [] => rfl
  | [_] => rfl
  | [_, _] => rfl
  | c1 :: c2 :: c3 :: rest => by
    have ih := collapseNewlineRuns_noTriple (c2 :: c3 :: rest)
    by_cases h : (decide (c1 = '\n') && decide (c2 = '\n') && decide (c3 = '\n')) = true
    · simp only [collapseNewlineRuns]
      rw [if_pos h]
      exact ih
    · simp only [collapseNewlineRuns]
      rw [if_neg h]
      by_cases h2 : c2 = '\n'
      · by_cases h3 : c3 = '\n'
        · have h1 : ¬c1 = '\n' := fun h1 => h (by rw [h1, h2, h3]; decide)
          obtain ⟨m, hm⟩ := collapseNewlineRuns_head c2 (c3 :: rest)
          rw [hm]
          rw [hm] at ih
          refine noTripleNL_cons_of c1 ih ?_
          intro a b m' _
          simp [h1]
        · obtain ⟨m, hm⟩ := collapseNewlineRuns_head2 c2 rest h3
          rw [hm]
          rw [hm] at ih
          refine noTripleNL_cons_of c1 ih ?_
          intro a b m' heq
          injection heq with ha heq'
          injection heq' with hb _
          subst ha
          subst hb
          simp [h3]
      · obtain ⟨m, hm⟩ := collapseNewlineRuns_head c2 (c3 :: rest)
        rw [hm]
        rw [hm] at ih
        refine noTripleNL_cons_of c1 ih ?_
        intro a b m' heq
        injection heq with ha _
        subst ha
        simp [h2]

theorem collapseNewlineRuns_noSS :
    ∀ (l : List Char), noSSPair l = true → noSSPair (collapseNewlineRuns l) = true
  | [], _ => rfl
  | [_], _ => rfl
  | [_, _], h => h
  | c1 :: c2 :: c3 :: rest, h => by
    have ih := collapseNewlineRuns_noSS (c2 :: c3 :: rest) (noSSPair_tail h)
    by_cases hcond : (decide (c1 = '\n') && decide (c2 = '\n') && decide (c3 = '\n')) = true
    · simp only [collapseNewlineRuns]
      rw [if_pos hcond]
      exact ih
    · simp only [collapseNewlineRuns]
      rw [if_neg hcond]
      obtain ⟨m, hm⟩ := collapseNewlineRuns_head c2 (c3 :: rest)
      rw [hm]
      rw [hm] at ih
      refine noSSPair_cons_of c1 ih ?_
      intro a m' heq
      injection heq with ha _
      subst ha
      simp only [noSSPair, Bool.and_eq_true, Bool.not_eq_true'] at h
      exact h.1

theorem noTab_sublist {l' l : List Char} (hs : l'.Sublist l) (h : noTab l = true) :
    noTab l' = true := by
  simp only [noTab, List.all_eq_true] at h ⊢
  exact fun c hc => h c (hs.subset hc)

theorem rstripChars_prefix : ∀ (l : List Char), ∃ t, l = rstripChars l ++ t
  | [] => ⟨[], rfl⟩
  | c :: rest => by
    obtain ⟨t, ht⟩ := rstripChars_prefix rest
    by_cases hc : ((rstripChars rest).isEmpty && isWsCh c) = true
    · refine ⟨c :: rest, ?_⟩
      simp only [rstripChars]
      rw [if_pos hc, List.nil_append]
    · refine ⟨t, ?_⟩
      simp only [rstripChars]
      rw [if_neg hc, List.cons_append]
      exact congrArg (c :: ·) ht

theorem rstripChars_head (c : Char) (rest : List Char) :
    rstripChars (c :: rest) = [] ∨ ∃ m, rstripChars (c :: rest) = c :: m := by
  by_cases hc : ((rstripChars rest).isEmpty && isWsCh c) = true
  · left
    simp only [rstripChars]
    rw [if_pos hc]
  · right
    refine ⟨rstripChars rest, ?_⟩
    simp only [rstripChars]
    rw [if_neg hc]

theorem rstripChars_idem : ∀ (l : List Char), rstripChars (rstripChars l) = rstripChars l
  | [] => rfl
  | c :: rest => by
    have ih := rstripChars_idem rest
    by_cases hc : ((rstripChars rest).isEmpty && isWsCh c) = true
    · simp only [rstripChars]
      rw [if_pos hc]
      rfl
    · simp only [rstripChars]
      rw [if_neg hc]
      simp only [rstripChars, ih]
      rw [if_neg hc]

theorem dropWhile_head_false {p : Char → Bool} :
    ∀ (l : List Char) {c : Char} {rest : List Char},
      l.dropWhile p = c :: rest → p c = false
  | [], _, _, h => by simp at h
  | a :: l', c, rest, h => by
    by_cases ha : p a = true
    · exact dropWhile_head_false l' (by rw [List.dropWhile_cons, if_pos ha] at h; exact h)
    · rw [List.dropWhile_cons, if_neg ha] at h
      injection h with hac _
      rw [← hac]
      exact Bool.eq_false_iff.mpr ha

theorem dropWhile_pyStrip (l : List Char) :
    (pyStripChars l).dropWhile isWsCh = pyStripChars l := by
  unfold pyStripChars
  cases hd : l.dropWhile isWsCh with
  | nil => rfl
  | cons c rest =>
    rcases rstripChars_head c rest with h | ⟨m, hm⟩
    · rw [h]
      rfl
    · rw [hm, List.dropWhile_cons, if_neg]
      simp [dropWhile_head_false l hd]

theorem pyStrip_idem (l : List Char) :
    pyStripChars (pyStripChars l) = pyStripChars l := by
  conv_lhs => rw [pyStripChars, dropWhile_pyStrip]
  unfold pyStripChars
  exact rstripChars_idem _

theorem pyStrip_noSS {l : List Char} (h : noSSPair l = true) :
    noSSPair (pyStripChars l) = true := by
  have hdrop : noSSPair (l.dropWhile isWsCh) = true := by
    refine noSSPair_append_right (l.takeWhile isWsCh) _ ?_
    rw [List.takeWhile_append_dropWhile]
    exact h
  obtain ⟨t, ht⟩ := rstripChars_prefix (l.dropWhile isWsCh)
  exact noSSPair_append_left _ t (by rw [pyStripChars] at *; rw [← ht]; exact hdrop)

theorem pyStrip_noTriple {l : List Char} (h : noTripleNL l = true) :
    noTripleNL (pyStripChars l) = true := by
  have hdrop : noTripleNL (l.dropWhile isWsCh) = true := by
    refine noTripleNL_append_right (l.takeWhile isWsCh) _ ?_
    rw [List.takeWhile_append_dropWhile]
    exact h
  obtain ⟨t, ht⟩ := rstripChars_prefix (l.dropWhile isWsCh)
  exact noTripleNL_append_left _ t (by rw [pyStripChars] at *; rw [← ht]; exact hdrop)

theorem pyStrip_noTab {l : List Char} (h : noTab l = true) :
    noTab (pyStripChars l) = true := by
  have hdrop : noTab (l.dropWhile isWsCh) = true := by
    refine noTab_append_right (m := l.takeWhile isWsCh) ?_
    rw [List.takeWhile_append_dropWhile]
    exact h
  obtain ⟨t, ht⟩ := rstripChars_prefix (l.dropWhile isWsCh)
  exact noTab_append_left (by rw [pyStripChars] at *; rw [← ht]; exact hdrop)

theorem cleanList_noTab (l : List Char) : noTab (cleanList l) = true :=
  pyStrip_noTab (noTab_sublist (collapseNewlineRuns_sublist _) (collapseSpaceRuns_noTab _))

theorem cleanList_noSS (l : List Char) : noSSPair (cleanList l) = true :=
  pyStrip_noSS (collapseNewlineRuns_noSS _ (collapseSpaceRuns_noSS _))

theorem cleanList_noTriple (l : List Char) : noTripleNL (cleanList l) = true :=
  pyStrip_noTriple (collapseNewlineRuns_noTriple _)

theorem cleanList_idem (l : List Char) : cleanList (cleanList l) = cleanList l := by
  conv_lhs => rw [cleanList]
  rw [collapseSpaceRuns_id _ (cleanList_noTab l) (cleanList_noSS l),
    collapseNewlineRuns_id _ (cleanList_noTriple l)]
  conv_lhs => rw [cleanList]
  exact pyStrip_idem _

/-- Text cleaning is idempotent. -/
theorem clean_text_idem (s : String) : clean_text (clean_text s) = clean_text s := by
  show String.mk (cleanList (cleanList s.data)) = String.mk (cleanList s.data)
  rw [cleanList_idem]

/-! ### Regex pattern embeddings

Each regex used by the sources is hand-translated into a deterministic
matcher over `List Char`, following Python `re` leftmost-match semantics.
Backtracking is resolved statically where the adjacent character classes are
disjoint; the one overlapping case (`CLS*([^\n]+)`) is given its exact
backtracking behaviour in `capClassVal`. -/

def isAsciiDigit (c : Char) : Bool := '0' ≤ c && c ≤ '9'

def isDevaDigit (c : Char) : Bool := 0x966 ≤ c.val && c.val ≤ 0x96F

/-- `\d` under re.UNICODE, restricted to the scripts in play
(ASCII and Devanagari digits). -/
def isDecDigit (c : Char) : Bool := isAsciiDigit c || isDevaDigit c

def isUpperAscii (c : Char) : Bool := 'A' ≤ c && c ≤ 'Z'

def isLowerAscii (c : Char) : Bool := 'a' ≤ c && c ≤ 'z'

def isAsciiLetter (c : Char) : Bool := isUpperAscii c || isLowerAscii c

def isAsciiAlnum (c : Char) : Bool := isAsciiLetter c || isAsciiDigit c

/-- `\w` under re.UNICODE for the scripts in play: ASCII alphanumerics,
underscore, and the Devanagari block. -/
def isWordCh (c : Char) : Bool :=
  isAsciiAlnum c || c = '_' || (0x900 ≤ c.val && c.val ≤ 0x97F)

def isWordOpt : Option Char → Bool
  | none => false
  | some c => isWordCh c

/-- `\b` after a match: end of input or a non-word character. -/
def wordBoundaryAfter : List Char → Bool
  | [] => true
  | c :: _ => !isWordCh c

/-- `re.search` for a pattern that starts with `\b`: try every start
position left to right; a position is a candidate only when the preceding
character (tracked in the accumulator) is not a word character. -/
def scanBdry (matchAt : List Char → Option (List Char)) :
    Option Char → List Char → Option (List Char)
  | _, [] => none
  | prev, c :: rest =>
    match (if isWordOpt prev then none else matchAt (c :: rest)) with
    | some r => some r
    | none => scanBdry matchAt (some c) rest

/-- `([0-9]{1,4})\b` at a candidate position: the greedy repetition inside a
maximal digit run can only end at a word boundary by taking the whole run,
so a run of length 1..4 followed by a non-word character matches and any
other run fails. -/
def serialAt (l : List Char) : Option (List Char) :=
  let ds := l.takeWhile isAsciiDigit
  if 1 ≤ ds.length && ds.length ≤ 4 && wordBoundaryAfter (l.drop ds.length) then some ds
  else none

/-- `([A-Z]{3}[0-9]{6,7})\b` with re.IGNORECASE at a candidate position:
three ASCII letters of either case, then greedily 7 digits else 6, each
requiring a word boundary after; a longer digit run fails both attempts on
digits (word characters). -/
def epicAt (l : List Char) : Option (List Char) :=
  let letters := l.take 3
  if letters.length = 3 && letters.all isAsciiLetter then
    let rest := l.drop 3
    let ds := rest.takeWhile isAsciiDigit
    if ds.length = 7 && wordBoundaryAfter (rest.drop 7) then some (letters ++ ds)
    else if ds.length = 6 && wordBoundaryAfter (rest.drop 6) then some (letters ++ ds)
    else none
  else none

/-- `([A-Z0-9]{6,12})\b` with re.IGNORECASE at a candidate position
(parse_ocr.py line 151): as for `serialAt`, only the whole maximal
alphanumeric run can match. -/
def alnumRunAt (l : List Char) : Option (List Char) :=
  let run := l.takeWhile isAsciiAlnum
  if 6 ≤ run.length && run.length ≤ 12 && wordBoundaryAfter (l.drop run.length) then some run
  else none

/-- `re.search`: try the position matcher at every start position, leftmost
success wins. -/
def reSearch (matchAt : List Char → Option (List Char)) : List Char → Option (List Char)
  | [] => matchAt []
  | c :: rest =>
    match matchAt (c :: rest) with
    | some r => some r
    | none => reSearch matchAt rest

/-- A literal token followed by a continuation. -/
def litThen (w : String) (next : List Char → Option (List Char)) (l : List Char) :
    Option (List Char) :=
  if w.data.isPrefixOf l then next (l.drop w.data.length) else none

/-- Greedy `\s*` before a continuation whose first element cannot match a
whitespace character (true for every use below), so no backtracking arises. -/
def wsThen (next : List Char → Option (List Char)) (l : List Char) : Option (List Char) :=
  next (l.dropWhile isWsCh)

/-- Ordered alternation `(?:w1|w2|...)` before a continuation, with full
backtracking across the alternatives. -/
def altLitThen : List String → (List Char → Option (List Char)) → List Char →
    Option (List Char)
  | [], _, _ => none
  | w :: ws, next, l =>
    match litThen w next l with
    | some r => some r
    | none => altLitThen ws next l

/-- The class `[\s:]` of the parse_ocr.py label patterns. -/
def isWsColon (c : Char) : Bool := isWsCh c || c = ':'

/-- Capture for `CLS*([^\n]+)` where the class `CLS` contains `'\n'`:
the greedy class run is followed by at least one non-newline character; when
the class run consumes the whole remainder the engine backtracks to the last
class character that is not a newline and the capture is that single
character (everything after it in the run is a newline). -/
def capClassVal (cls : Char → Bool) (l : List Char) : Option (List Char) :=
  match l.dropWhile cls with
  | [] =>
    match l.reverse.dropWhile (fun c => c = '\n') with
    | [] => none
    | c :: _ => some [c]
  | c :: rest => some ((c :: rest).takeWhile (fun ch => !(ch = '\n')))

/-- Capture for `CLS*(D{1,max})` where the digit class `D` is disjoint from
`CLS`, so the greedy class run is final and the digit run is truncated by the
repetition bound. -/
def capClassDigits (cls digit : Char → Bool) (maxRep : Option Nat) (l : List Char) :
    Option (List Char) :=
  let ds := (l.dropWhile cls).takeWhile digit
  if ds.isEmpty then none
  else some (match maxRep with | some k => ds.take k | none => ds)

def isColonFW (c : Char) : Bool := c = ':' || c = '：'

/-- Lazy `.*?[:：]` before a continuation: expand the dot (which does not
match a newline) one character at a time, trying the continuation at every
colon passed. -/
def lazyColonThen (next : List Char → Option (List Char)) :
    List Char → Option (List Char)
  | [] => none
  | c :: rest =>
    match (if isColonFW c then next rest else none) with
    | some r => some r
    | none => if c = '\n' then none else lazyColonThen next rest

/-- `VoterParser.extract_field` (parse_ocr.py lines 50-53):
`match.group(1).strip() if match else ""`.  The same shape is used by
`parse_hindi_text` (`match.group(1).strip()` per field). -/
def extract_field (search : List Char → Option (List Char)) (text : String) : String :=
  match search text.data with
  | some cap => String.mk (pyStripChars cap)
  | none => ""

/-! The searches for `VoterParser.PATTERNS` (parse_ocr.py lines 22-30). -/

def serialSearch (l : List Char) : Option (List Char) := scanBdry serialAt none l

def epicSearch (l : List Char) : Option (List Char) := scanBdry epicAt none l

def epicRunSearch (l : List Char) : Option (List Char) := scanBdry alnumRunAt none l

def nameSearch : List Char → Option (List Char) :=
  reSearch (litThen "निर्वाचक" (wsThen (litThen "का"
    (wsThen (litThen "नाम" (capClassVal isWsColon))))))

def relationSearch : List Char → Option (List Char) :=
  reSearch (altLitThen ["पति", "पिता", "माता"] (wsThen (litThen "का"
    (wsThen (litThen "नाम" (capClassVal isWsColon))))))

def houseSearch : List Char → Option (List Char) :=
  reSearch (litThen "मकान" (wsThen (litThen "संख्या" (capClassVal isWsColon))))

def ageSearch : List Char → Option (List Char) :=
  reSearch (litThen "उम्र" (capClassDigits isWsColon isAsciiDigit (some 3)))

def genderSearch : List Char → Option (List Char) :=
  reSearch (litThen "लिंग" (capClassVal isWsColon))

/-! The searches for `parse_hindi_text` (ocr_page_fast.py lines 145-160,
ocr_page_python.py lines 183-199). -/

def phtNameSearch : List Char → Option (List Char) :=
  reSearch (altLitThen ["निर्वाचक", "नाम"] (lazyColonThen (capClassVal isWsCh)))

def phtFatherSearch : List Char → Option (List Char) :=
  reSearch (altLitThen ["पिता", "पति"] (lazyColonThen (capClassVal isWsCh)))

def phtAgeSearch : List Char → Option (List Char) :=
  reSearch (altLitThen ["उम्र", "आयु"]
    (lazyColonThen (capClassDigits isWsCh isDecDigit none)))

def phtAddressSearch : List Char → Option (List Char) :=
  reSearch (altLitThen ["पता", "ग्राम"] (lazyColonThen (capClassVal isWsCh)))

/-- The fields produced by `parse_hindi_text`; an unmatched field is absent
from the Python dict and read back with `.get(field, '')`, modeled as `""`. -/
structure HindiFields where
  name : String
  father : String
  age : String
  address : String
deriving DecidableEq, Repr

/-- `parse_hindi_text` (identical in both page pipelines). -/
def parse_hindi_text (t : String) : HindiFields :=
  { name := extract_field phtNameSearch t
    father := extract_field phtFatherSearch t
    age := extract_field phtAgeSearch t
    address := extract_field phtAddressSearch t }

/-! ### VoterParser (parse_ocr.py) -/

/-- Value of a decimal digit character (ASCII or Devanagari). -/
def decDigitVal (c : Char) : Nat :=
  if isAsciiDigit c then c.toNat - 48 else c.toNat - 0x966

/-- Python `int(s)` on the strings reachable here: surrounding whitespace is
ignored, an optional sign precedes a nonempty run of decimal digits; anything
else raises ValueError, modeled as `none`.  (PEP-515 underscore grouping is
not modeled; no digit-class capture can contain one.) -/
def pyToInt (s : String) : Option Int :=
  let core := pyStripChars s.data
  let signed : Int × List Char :=
    match core with
    | '-' :: r => (-1, r)
    | '+' :: r => (1, r)
    | r => (1, r)
  if signed.2.isEmpty || !(signed.2.all isDecDigit) then none
  else some (signed.1 * Int.ofNat (signed.2.foldl (fun acc c => acc * 10 + decDigitVal c) 0))

/-- The age gate of parse_ocr.py lines 106-114 (and identically lines
169-177): a record with this age string survives iff `int(age)` succeeds and
lies in `[18, 120]`. -/
def age_check (a : String) : Bool :=
  match pyToInt a with
  | none => false
  | some v => decide (18 ≤ v) && decide (v ≤ 120)

def epicCanonicalCore (l : List Char) : Bool :=
  decide ((l.take 3).length = 3) && (l.take 3).all isUpperAscii &&
  (decide ((l.drop 3).length = 6) || decide ((l.drop 3).length = 7)) &&
  (l.drop 3).all isAsciiDigit

/-- `re.match(r"^[A-Z]{3}[0-9]{6,7}$", epic)` (parse_ocr.py line 117): the
whole string, or the whole string minus one final newline (the `$`), is
exactly 3 uppercase ASCII letters followed by 6 or 7 ASCII digits. -/
def epicCanonical (s : String) : Bool :=
  epicCanonicalCore s.data ||
    (match s.data.getLast? with
      | some '\n' => epicCanonicalCore s.data.dropLast
      | _ => false)

/-- The fields extracted by `VoterParser.parse_tile` (parse_ocr.py lines
78-88), in source order. -/
structure TileRecord where
  tile_id : String
  serial : String
  epic : String
  name : String
  relation : String
  house_no : String
  age : String
  gender : String
  raw_text_length : Nat
deriving DecidableEq, Repr

/-- Dictionary access `record.get(field)` for the required-field check. -/
def getTileField (r : TileRecord) : String → String
  | "serial" => r.serial
  | "name" => r.name
  | "relation" => r.relation
  | "house_no" => r.house_no
  | "age" => r.age
  | "gender" => r.gender
  | "epic" => r.epic
  | _ => ""

/-- The extraction part of `parse_tile` (parse_ocr.py lines 78-88). -/
def tileExtract (text : String) (tile_id : String) : TileRecord :=
  { tile_id := tile_id
    serial := extract_field serialSearch text
    epic := extract_field epicSearch text
    name := extract_field nameSearch text
    relation := extract_field relationSearch text
    house_no := extract_field houseSearch text
    age := extract_field ageSearch text
    gender := extract_field genderSearch text
    raw_text_length := text.length }

/-- `PATTERNS.keys()` in dict order (parse_ocr.py lines 22-30). -/
def patternsKeys : List String :=
  ["serial", "name", "relation", "house_no", "age", "gender", "epic"]

/-- `REQUIRED_FIELDS` (parse_ocr.py line 33). -/
def requiredFields : List String := ["name", "age", "epic"]

/-- `VoterParser.parse_tile` (parse_ocr.py lines 63-122). -/
def parse_tile (strict_mode : Bool) (ocr_text : String) (tile_id : String) :
    Option TileRecord :=
  let text := clean_text ocr_text
  if text.length < 20 then none
  else
    let record := tileExtract text tile_id
    let required := if strict_mode then patternsKeys else requiredFields
    let missing := required.filter (fun f => getTileField record f == "")
    if !missing.isEmpty then none
    else if record.age != "" && !(age_check record.age) then none
    else if record.epic != "" && !(epicCanonical record.epic) && strict_mode then none
    else some record

/-- The three per-record OCR text files of the decoupled pipeline; `none`
models an unreadable file (the `except` arms of parse_ocr.py lines 129-145). -/
structure RecordFiles where
  serialF : Option String
  epicF : Option String
  textF : Option String
deriving DecidableEq, Repr

/-- The record assembled by `VoterParser.parse_record` (parse_ocr.py lines
148-158); `page_id` is attached by `process_page` (line 220). -/
structure DecRecord where
  record_id : String
  page_id : String
  serial : String
  epic : String
  name : String
  relation : String
  house_no : String
  age : String
  gender : String
  raw_text_length : Nat
deriving DecidableEq, Repr

def getDecField (r : DecRecord) : String → String
  | "serial" => r.serial
  | "name" => r.name
  | "relation" => r.relation
  | "house_no" => r.house_no
  | "age" => r.age
  | "gender" => r.gender
  | "epic" => r.epic
  | _ => ""

/-- The record assembly of `parse_record` (parse_ocr.py lines 129-158):
serial and epic files are read stripped, the hindi text file is read
unstripped (`f.read()` on line 143), an unreadable file reads as `""`;
fields are extracted from these raw (uncleaned) texts. -/
def decExtract (files : RecordFiles) (record_id : String) : DecRecord :=
  let serial_text := match files.serialF with | some s => stripStr s | none => ""
  let epic_text := match files.epicF with | some s => stripStr s | none => ""
  let hindi_text := match files.textF with | some s => s | none => ""
  { record_id := record_id
    page_id := ""
    serial := extract_field serialSearch serial_text
    epic := extract_field epicRunSearch epic_text
    name := extract_field nameSearch hindi_text
    relation := extract_field relationSearch hindi_text
    house_no := extract_field houseSearch hindi_text
    age := extract_field ageSearch hindi_text
    gender := extract_field genderSearch hindi_text
    raw_text_length := hindi_text.length }

/-- `VoterParser.parse_record` (parse_ocr.py lines 124-179): required fields
are name, age, serial; the age gate applies; there is no epic-format check
here. -/
def parse_record (files : RecordFiles) (record_id : String) : Option DecRecord :=
  let record := decExtract files record_id
  let missing := ["name", "age", "serial"].filter (fun f => getDecField record f == "")
  if !missing.isEmpty then none
  else if record.age != "" && !(age_check record.age) then none
  else some record

/-- `VoterParser.stats` (parse_ocr.py lines 43-48). -/
structure Stats where
  total_tiles : Nat
  valid_records : Nat
  invalid_records : Nat
  skipped_tiles : Nat
deriving DecidableEq, Repr

def initStats : Stats := ⟨0, 0, 0, 0⟩

/-- One record status file found by `process_page`: its id, its contents as
read (`none` models an unreadable file), and the three region text files. -/
structure StatusEntry where
  record_id : String
  statusFile : Option String
  files : RecordFiles
deriving DecidableEq, Repr

/-- parse_ocr.py lines 206-210: read and strip the status file, `"UNKNOWN"`
when unreadable. -/
def statusOf (e : StatusEntry) : String :=
  match e.statusFile with
  | some s => stripStr s
  | none => "UNKNOWN"

/-- One iteration of the `process_page` loop (parse_ocr.py lines 199-224):
`total_tiles` is incremented for every status file (line 200), then exactly
one of `skipped_tiles` (status not VALID, line 213), `valid_records`
(line 222) or `invalid_records` (line 224). -/
def processEntry (page_id : String) (st : Stats × List DecRecord) (e : StatusEntry) :
    Stats × List DecRecord :=
  if statusOf e != "VALID" then
    ({ st.1 with
        total_tiles := st.1.total_tiles + 1
        skipped_tiles := st.1.skipped_tiles + 1 }, st.2)
  else
    match parse_record e.files e.record_id with
    | some r =>
      ({ st.1 with
          total_tiles := st.1.total_tiles + 1
          valid_records := st.1.valid_records + 1 },
        st.2 ++ [{ r with page_id := page_id }])
    | none =>
      ({ st.1 with
          total_tiles := st.1.total_tiles + 1
          invalid_records := st.1.invalid_records + 1 }, st.2)

/-- `VoterParser.process_page` (parse_ocr.py lines 181-226), folded over the
sorted status files of one page directory. -/
def vp_process_page (page_id : String) (st : Stats × List DecRecord)
    (entries : List StatusEntry) : Stats × List DecRecord :=
  entries.foldl (processEntry page_id) st

/-- Fixed fieldnames of `process_directory` (parse_ocr.py lines 260-261). -/
def parseCsvFieldnames : List String :=
  ["page_id", "record_id", "serial", "epic", "name", "relation", "house_no",
   "age", "gender", "raw_text_length"]

def decRecordRow (r : DecRecord) : List String :=
  [r.page_id, r.record_id, r.serial, r.epic, r.name, r.relation, r.house_no,
   r.age, r.gender, toString r.raw_text_length]

/-- The tabular output of `process_directory` (parse_ocr.py lines 258-270)
as a list of rows: header plus rows when records exist, an absent file
(no rows at all) otherwise. -/
def writeParseCsv (records : List DecRecord) : List (List String) :=
  if records.isEmpty then [] else parseCsvFieldnames :: records.map decRecordRow

/-! ### The two page pipelines (ocr_page_fast.py and ocr_page_python.py)

The external recognition engine is an oracle: for each tile number and
region kind it either returns the raw recognized text or fails (exception,
nonzero exit status, or timeout). -/

inductive RegionKind
  | serial
  | epic
  | text
deriving DecidableEq, Repr

inductive RecogOutcome
  | ok (s : String)
  | err
deriving DecidableEq, Repr

def Oracle : Type := Nat → RegionKind → RecogOutcome

/-- A record row emitted by either page pipeline (the `csv_record` dicts of
ocr_page_fast.py lines 230-243 and ocr_page_python.py lines 273-286). -/
structure PageRecord where
  page : String
  record_id : String
  row : Nat
  col : Nat
  serial : String
  epic : String
  name : String
  father : String
  age : String
  address : String
  raw_text : String
  valid : Bool
deriving DecidableEq, Repr

/-- ocr_page_fast.py lines 202-220: the three OCR calls of one tile run
inside a single `try` block, in order serial, epic, text (each result
`.strip()`-ed); on any exception the handler sets
`serial = epic = text = ""` for the whole tile. -/
def fastTileTexts (o : Oracle) (n : Nat) : String × String × String :=
  match o n .serial, o n .epic, o n .text with
  | .ok s, .ok e, .ok t => (stripStr s, stripStr e, stripStr t)
  | _, _, _ => ("", "", "")

/-- `is_valid = (len(epic) >= 6) or (len(text) >= 20)`
(ocr_page_fast.py line 226). -/
def fastValid (epic text : String) : Bool :=
  decide (6 ≤ epic.length) || decide (20 ≤ text.length)

/-- One record of `process_page` in ocr_page_fast.py (lines 184-245). -/
def fastRecord (page : String) (o : Oracle) (row col : Nat) : PageRecord :=
  let n := row * GRID_COLS + col
  let st := fastTileTexts o n
  let parsed := parse_hindi_text st.2.2
  { page := page
    record_id := recordIdStr n
    row := row
    col := col
    serial := st.1
    epic := st.2.1
    name := parsed.name
    father := parsed.father
    age := parsed.age
    address := parsed.address
    raw_text := st.2.2
    valid := fastValid st.2.1 st.2.2 }

/-- `process_page` of ocr_page_fast.py: one record per in-bounds tile in
row-major order. -/
def fast_process_page (page : String) (w h : Nat) (o : Oracle) : List PageRecord :=
  (gridPositions.filter fun p => tileInBounds w h p.1 p.2).map
    fun p => fastRecord page o p.1 p.2

/-- A worker result of `ocr_region` (ocr_page_python.py lines 111-180). -/
structure RecognitionResult where
  text : String
  success : Bool
deriving DecidableEq, Repr

/-- `ocr_region`: on success the tesseract output file is read and stripped;
on any failure (exception, timeout, nonzero exit) the result is empty text
with `success=False`, for that region only. -/
def ocr_region (out : RecogOutcome) : RecognitionResult :=
  match out with
  | .ok s => { text := stripStr s, success := true }
  | .err => { text := "", success := false }

/-- `is_valid = len(serial) >= 1 and len(epic) >= 6 and len(text) >= 20`
(ocr_page_python.py line 269). -/
def pyValid (serial epic text : String) : Bool :=
  decide (1 ≤ serial.length) && decide (6 ≤ epic.length) && decide (20 ≤ text.length)

/-- One record of `process_page` in ocr_page_python.py (lines 257-288).
Worker completions arrive in arbitrary order but are reassembled into
`ocr_results` keyed by record id (lines 243-251), so each record reads
exactly its own three region results (each `.strip()`-ed again at lines
261-263). -/
def pyRecord (page : String) (o : Oracle) (row col : Nat) : PageRecord :=
  let n := row * GRID_COLS + col
  let serial := stripStr (ocr_region (o n .serial)).text
  let epic := stripStr (ocr_region (o n .epic)).text
  let text := stripStr (ocr_region (o n .text)).text
  let parsed := parse_hindi_text text
  { page := page
    record_id := recordIdStr n
    row := row
    col := col
    serial := serial
    epic := epic
    name := parsed.name
    father := parsed.father
    age := parsed.age
    address := parsed.address
    raw_text := text
    valid := pyValid serial epic text }

/-- `process_page` of ocr_page_python.py: one record per in-bounds tile of
`extract_record_regions`, in row-major order. -/
def py_process_page (page : String) (w h : Nat) (o : Oracle) : List PageRecord :=
  (gridPositions.filter fun p => tileInBounds w h p.1 p.2).map
    fun p => pyRecord page o p.1 p.2

/-- Fieldnames of both page pipelines (`csv_records[0].keys()` in dict
insertion order). -/
def pageCsvFieldnames : List String :=
  ["page", "record_id", "row", "col", "serial", "epic", "name", "father",
   "age", "address", "raw_text", "valid"]

def pyBoolStr (b : Bool) : String := if b then "True" else "False"

def pageRecordRow (r : PageRecord) : List String :=
  [r.page, r.record_id, toString r.row, toString r.col, r.serial, r.epic,
   r.name, r.father, r.age, r.address, r.raw_text, pyBoolStr r.valid]

/-- The tabular output of `process_page` in ocr_page_fast.py (lines 252-256):
the file is opened unconditionally but header and rows are written only when
`csv_records` is nonempty, so a run with zero records leaves an empty file
(zero rows, no header).  ocr_page_python.py (lines 292-296) behaves the same
for nonempty records and returns before writing anything when no records
were extracted. -/
def writePageCsv (records : List PageRecord) : List (List String) :=
  if records.isEmpty then [] else pageCsvFieldnames :: records.map pageRecordRow

/-! ### Characterization lemmas -/

theorem stripStr_idem (s : String) : stripStr (stripStr s) = stripStr s := by
  show String.mk (pyStripChars (pyStripChars s.data)) = String.mk (pyStripChars s.data)
  rw [pyStrip_idem]

theorem parse_tile_eq (strict : Bool) (t id : String) :
    parse_tile strict t id =
      (if (clean_text t).length < 20 then none
       else if !(((if strict then patternsKeys else requiredFields).filter
           (fun f => getTileField (tileExtract (clean_text t) id) f == "")).isEmpty) then none
       else if (tileExtract (clean_text t) id).age != "" &&
           !(age_check (tileExtract (clean_text t) id).age) then none
       else if (tileExtract (clean_text t) id).epic != "" &&
           !(epicCanonical (tileExtract (clean_text t) id).epic) && strict then none
       else some (tileExtract (clean_text t) id)) := rfl

theorem parse_tile_none_iff (strict : Bool) (t id : String) :
    parse_tile strict t id = none ↔
      ((clean_text t).length < 20 ∨
        (!(((if strict then patternsKeys else requiredFields).filter
            (fun f => getTileField (tileExtract (clean_text t) id) f == "")).isEmpty)) = true ∨
        ((tileExtract (clean_text t) id).age != "" &&
          !(age_check (tileExtract (clean_text t) id).age)) = true ∨
        ((tileExtract (clean_text t) id).epic != "" &&
          !(epicCanonical (tileExtract (clean_text t) id).epic) && strict) = true) := by
  rw [parse_tile_eq]
  by_cases h1 : (clean_text t).length < 20
  · simp [h1]
  · rw [if_neg h1]
    by_cases h2 : (!(((if strict then patternsKeys else requiredFields).filter
        (fun f => getTileField (tileExtract (clean_text t) id) f == "")).isEmpty)) = true
    · simp [h1, h2]
    · rw [if_neg h2]
      by_cases h3 : ((tileExtract (clean_text t) id).age != "" &&
          !(age_check (tileExtract (clean_text t) id).age)) = true
      · simp [h1, h2, h3]
      · rw [if_neg h3]
        by_cases h4 : ((tileExtract (clean_text t) id).epic != "" &&
            !(epicCanonical (tileExtract (clean_text t) id).epic) && strict) = true
        · simp [h1, h2, h3, h4]
        · simp [h1, h2, h3, h4]

theorem parse_tile_cases (strict : Bool) (t id : String) :
    parse_tile strict t id = none ∨
      parse_tile strict t id = some (tileExtract (clean_text t) id) := by
  rw [parse_tile_eq]
  by_cases h1 : (clean_text t).length < 20
  · rw [if_pos h1]
    exact Or.inl rfl
  · rw [if_neg h1]
    by_cases h2 : (!(((if strict then patternsKeys else requiredFields).filter
        (fun f => getTileField (tileExtract (clean_text t) id) f == "")).isEmpty)) = true
    · rw [if_pos h2]
      exact Or.inl rfl
    · rw [if_neg h2]
      by_cases h3 : ((tileExtract (clean_text t) id).age != "" &&
          !(age_check (tileExtract (clean_text t) id).age)) = true
      · rw [if_pos h3]
        exact Or.inl rfl
      · rw [if_neg h3]
        by_cases h4 : ((tileExtract (clean_text t) id).epic != "" &&
            !(epicCanonical (tileExtract (clean_text t) id).epic) && strict) = true
        · rw [if_pos h4]
          exact Or.inl rfl
        · rw [if_neg h4]
          exact Or.inr rfl

theorem parse_record_eq (files : RecordFiles) (record_id : String) :
    parse_record files record_id =
      (if !((["name", "age", "serial"].filter
          (fun f => getDecField (decExtract files record_id) f == "")).isEmpty) then none
       else if (decExtract files record_id).age != "" &&
           !(age_check (decExtract files record_id).age) then none
       else some (decExtract files record_id)) := rfl

theorem parse_record_cases (files : RecordFiles) (record_id : String) :
    parse_record files record_id = none ∨
      parse_record files record_id = some (decExtract files record_id) := by
  rw [parse_record_eq]
  by_cases h1 : (!((["name", "age", "serial"].filter
      (fun f => getDecField (decExtract files record_id) f == "")).isEmpty)) = true
  · rw [if_pos h1]
    exact Or.inl rfl
  · rw [if_neg h1]
    by_cases h2 : ((decExtract files record_id).age != "" &&
        !(age_check (decExtract files record_id).age)) = true
    · rw [if_pos h2]
      exact Or.inl rfl
    · rw [if_neg h2]
      exact Or.inr rfl

theorem parse_record_none_iff (files : RecordFiles) (record_id : String) :
    parse_record files record_id = none ↔
      ((!((["name", "age", "serial"].filter
          (fun f => getDecField (decExtract files record_id) f == "")).isEmpty)) = true ∨
        ((decExtract files record_id).age != "" &&
          !(age_check (decExtract files record_id).age)) = true) := by
  rw [parse_record_eq]
  by_cases h1 : (!((["name", "age", "serial"].filter
      (fun f => getDecField (decExtract files record_id) f == "")).isEmpty)) = true
  · simp [h1]
  · rw [if_neg h1]
    by_cases h2 : ((decExtract files record_id).age != "" &&
        !(age_check (decExtract files record_id).age)) = true
    · simp [h1, h2]
    · simp [h1, h2]

theorem getTileField_serial (r : TileRecord) : getTileField r "serial" = r.serial := rfl

theorem getTileField_name (r : TileRecord) : getTileField r "name" = r.name := rfl

theorem getTileField_relation (r : TileRecord) : getTileField r "relation" = r.relation := rfl

theorem getTileField_house (r : TileRecord) : getTileField r "house_no" = r.house_no := rfl

theorem getTileField_age (r : TileRecord) : getTileField r "age" = r.age := rfl

theorem getTileField_gender (r : TileRecord) : getTileField r "gender" = r.gender := rfl

theorem getTileField_epic (r : TileRecord) : getTileField r "epic" = r.epic := rfl

theorem getDecField_serial (r : DecRecord) : getDecField r "serial" = r.serial := rfl

theorem getDecField_name (r : DecRecord) : getDecField r "name" = r.name := rfl

theorem getDecField_age (r : DecRecord) : getDecField r "age" = r.age := rfl

theorem missing_nonempty_iff (required : List String) (g : String → Bool) :
    (!((required.filter g).isEmpty)) = true ↔ ∃ f ∈ required, g f = true := by
  rw [Bool.not_eq_true', ← Bool.not_eq_true, List.isEmpty_iff]
  simp [List.filter_eq_nil_iff]

theorem lenient_missing_iff (rec : TileRecord) :
    (!((requiredFields.filter (fun f => getTileField rec f == "")).isEmpty)) = true ↔
      (rec.name = "" ∨ rec.age = "" ∨ rec.epic = "") := by
  rw [missing_nonempty_iff]
  simp [requiredFields, getTileField_name, getTileField_age, getTileField_epic]

/-! ### Sample inputs used by witnesses and counterexamples -/

/-- An OCR text on which every `parse_tile` pattern matches; the EPIC is
lowercase, so the pattern (case-insensitive) extracts it while the canonical
uppercase format check fails on it. -/
def sampleTileText : String :=
  "1 निर्वाचक का नाम: राम कुमार\nपिता का नाम: श्याम\nमकान संख्या: 12\nउम्र: 45\nलिंग: पुरुष\nabc1234567"

/-- A 24-character text whose age label reads 17. -/
def ageOnlyText : String := "उम्र: 17 xxxxxxxxxxxxxxx"

/-- Recognition oracle: serial "1", empty EPIC, and `ageOnlyText` for every
tile; every call succeeds. -/
def underageOracle : Oracle := fun _ k =>
  match k with
  | .serial => .ok "1"
  | .epic => .ok ""
  | .text => .ok ageOnlyText

/-! ### Claim C5 -/

/-- C5: a non-empty extracted EPIC is checked against the canonical
3-uppercase-letters + 6-7-digits format ("ABC1234567" conforms, "AB123456"
does not).  In lenient mode the rejection outcome of `parse_tile` is fully
characterized by the length, required-field and age checks — the EPIC format
never causes rejection; in strict mode, a record that passes every other
check but has a non-conforming EPIC is rejected. -/
theorem c5_epic_format :
    (epicCanonical "ABC1234567" = true ∧ epicCanonical "AB123456" = false)
    ∧ (∀ t id, parse_tile false t id = none ↔
        ((clean_text t).length < 20 ∨
         (tileExtract (clean_text t) id).name = "" ∨
         (tileExtract (clean_text t) id).age = "" ∨
         (tileExtract (clean_text t) id).epic = "" ∨
         ((tileExtract (clean_text t) id).age ≠ "" ∧
           age_check (tileExtract (clean_text t) id).age = false)))
    ∧ (∀ t id,
        ¬(clean_text t).length < 20 →
        (∀ f ∈ patternsKeys, getTileField (tileExtract (clean_text t) id) f ≠ "") →
        age_check (tileExtract (clean_text t) id).age = true →
        epicCanonical (tileExtract (clean_text t) id).epic = false →
        parse_tile true t id = none) := by
  refine ⟨⟨by decide, by decide⟩, ?_, ?_⟩
  · intro t id
    rw [parse_tile_none_iff]
    have hreq : (if (false : Bool) then patternsKeys else requiredFields) = requiredFields := rfl
    rw [hreq, lenient_missing_iff]
    simp only [Bool.and_eq_true, bne_iff_ne, Bool.not_eq_true', Bool.and_false,
      Bool.false_eq_true, or_false]
    tauto
  · intro t id hlen hfields hage hepic
    rw [parse_tile_none_iff]
    have hepicne : (tileExtract (clean_text t) id).epic ≠ "" := by
      have h := hfields "epic" (by decide)
      rwa [getTileField_epic] at h
    refine Or.inr (Or.inr (Or.inr ?_))
    simp [bne_iff_ne, hepicne, hepic]

/-- C5 witness: on `sampleTileText` every strict-mode hypothesis holds and
strict mode indeed rejects the tile for its lowercase EPIC. -/
theorem c5_epic_format_witness : parse_tile true sampleTileText "00" = none :=
  c5_epic_format.2.2 sampleTileText "00" (by decide) (by decide) (by decide) (by decide)

/-! ### Claim C3 -/

/-- C3 counterexample: the fast page pipeline emits, for a 320x163 page (one
in-bounds tile), a record whose extracted age field is "17" — which the age
gate rejects — yet whose validity flag is true: the page pipelines never
consult the age, so the claim as stated fails on them. -/
theorem c3_age_gate_counterexample :
    fast_process_page "p" 320 163 underageOracle = [fastRecord "p" underageOracle 0 0] ∧
    (fastRecord "p" underageOracle 0 0).age = "17" ∧
    age_check "17" = false ∧
    (fastRecord "p" underageOracle 0 0).valid = true := by
  refine ⟨by decide, by decide, by decide, by decide⟩

/-- C3 amended: in the decoupled parser (both `parse_tile`, in every mode,
and `parse_record`) every emitted record with a non-empty age field has an
age that parses into [18, 120]; ages 45 / 17 / 121 / "abc" are accepted /
rejected / rejected / rejected.  The page pipelines' validity flag does not
consult the age. -/
theorem c3_age_validation :
    (∀ (strict : Bool) (t id : String) (r : TileRecord),
        parse_tile strict t id = some r → r.age ≠ "" → age_check r.age = true)
    ∧ (∀ (files : RecordFiles) (rid : String) (r : DecRecord),
        parse_record files rid = some r → r.age ≠ "" → age_check r.age = true)
    ∧ age_check "45" = true ∧ age_check "17" = false ∧ age_check "121" = false ∧
      age_check "abc" = false := by
  refine ⟨?_, ?_, by decide, by decide, by decide, by decide⟩
  · intro strict t id r h hage
    rcases parse_tile_cases strict t id with hc | hc
    · rw [h] at hc
      exact absurd hc (by simp)
    · rw [h] at hc
      injection hc with h'
      subst h'
      have hnone : ¬(parse_tile strict t id = none) := by
        rw [h]
        simp
      have hR := (not_congr (parse_tile_none_iff strict t id)).mp hnone
      push_neg at hR
      have h3 := hR.2.2.1
      cases hac : age_check (tileExtract (clean_text t) id).age with
      | false => exact absurd (by simp [bne_iff_ne, hage, hac]) h3
      | true => rfl
  · intro files rid r h hage
    rcases parse_record_cases files rid with hc | hc
    · rw [h] at hc
      exact absurd hc (by simp)
    · rw [h] at hc
      injection hc with h'
      subst h'
      have hnone : ¬(parse_record files rid = none) := by
        rw [h]
        simp
      have hR := (not_congr (parse_record_none_iff files rid)).mp hnone
      push_neg at hR
      have h2 := hR.2
      cases hac : age_check (decExtract files rid).age with
      | false => exact absurd (by simp [bne_iff_ne, hage, hac]) h2
      | true => rfl

/-- C3 witness: `parse_tile` accepts `sampleTileText` in lenient mode and its
age "45" passes the gate. -/
theorem c3_age_validation_witness :
    age_check (tileExtract (clean_text sampleTileText) "00").age = true :=
  c3_age_validation.1 false sampleTileText "00"
    (tileExtract (clean_text sampleTileText) "00") (by decide) (by decide)

/-! ### Claims C2 and C4 -/

/-- Recognition oracle: serial "1", empty EPIC, 25 characters of free text;
every call succeeds. -/
def longTextOracle : Oracle := fun _ k =>
  match k with
  | .serial => .ok "1"
  | .epic => .ok ""
  | .text => .ok "xxxxxxxxxxxxxxxxxxxxxxxxx"

/-- C2 counterexample: on a one-tile page the worker-pool pipeline emits the
record with an empty EPIC and 25 characters of text as `valid = false`,
although `len(epic) >= 6 or len(text) >= 20` holds — its validity rule also
requires a non-empty serial and a long EPIC conjunctively. -/
theorem c2_lenient_validity_counterexample :
    (py_process_page "p" 320 163 longTextOracle).map (fun r => r.valid) = [false] ∧
    (pyRecord "p" longTextOracle 0 0).epic = "" ∧
    (pyRecord "p" longTextOracle 0 0).raw_text.length = 25 ∧
    (pyRecord "p" longTextOracle 0 0).valid = false := by
  exact ⟨by decide, by decide, by decide, by decide⟩

/-- C2 amended: every record emitted by the persistent-engine pipeline has
`valid = (len(epic) >= 6 or len(text) >= 20)` (so an empty-EPIC record with
25 characters of text is valid there), while every record emitted by the
worker-pool pipeline has
`valid = (len(serial) >= 1 and len(epic) >= 6 and len(text) >= 20)`. -/
theorem c2_lenient_validity :
    (∀ page w h o r, r ∈ fast_process_page page w h o →
        r.valid = (decide (6 ≤ r.epic.length) || decide (20 ≤ r.raw_text.length)))
    ∧ (∀ page w h o r, r ∈ py_process_page page w h o →
        r.valid = (decide (1 ≤ r.serial.length) && decide (6 ≤ r.epic.length) &&
          decide (20 ≤ r.raw_text.length))) := by
  constructor
  · intro page w h o r hr
    obtain ⟨p, hp, rfl⟩ := List.mem_map.mp hr
    rfl
  · intro page w h o r hr
    obtain ⟨p, hp, rfl⟩ := List.mem_map.mp hr
    rfl

/-- C2 witness: the fast pipeline on the one-tile page described above emits
its record with the disjunctive validity value. -/
theorem c2_lenient_validity_witness :
    (fastRecord "p" longTextOracle 0 0).valid =
      (decide (6 ≤ (fastRecord "p" longTextOracle 0 0).epic.length) ||
       decide (20 ≤ (fastRecord "p" longTextOracle 0 0).raw_text.length)) :=
  c2_lenient_validity.1 "p" 320 163 longTextOracle _ (by decide)

/-- Forget the validity flag of a record. -/
def eraseValid (r : PageRecord) : PageRecord := { r with valid := false }

/-- C4 counterexample: with the same err-free oracle the two pipelines emit
different records — the persistent-engine record is valid, the worker-pool
record is not — so callers can distinguish the strategies. -/
theorem c4_backend_equivalence_counterexample :
    (fast_process_page "p" 320 163 longTextOracle).map (fun r => r.valid) = [true] ∧
    (py_process_page "p" 320 163 longTextOracle).map (fun r => r.valid) = [false] := by
  exact ⟨by decide, by decide⟩

/-- C4 amended: when every recognition call succeeds the two pipelines agree
on every emitted record except the validity flag, and worker-pool validity
implies persistent-engine validity (the converse fails by the
counterexample). -/
theorem c4_backend_equivalence :
    (∀ page w h o, (∀ n k, o n k ≠ RecogOutcome.err) →
        (fast_process_page page w h o).map eraseValid =
          (py_process_page page w h o).map eraseValid)
    ∧ (∀ page o row col,
        (pyRecord page o row col).valid = true → (fastRecord page o row col).valid = true) := by
  constructor
  · intro page w h o hok
    unfold fast_process_page py_process_page
    rw [List.map_map, List.map_map]
    apply List.map_congr_left
    intro p _
    show eraseValid (fastRecord page o p.1 p.2) = eraseValid (pyRecord page o p.1 p.2)
    obtain ⟨s, hs⟩ : ∃ s, o (p.1 * GRID_COLS + p.2) RegionKind.serial = .ok s := by
      cases h : o (p.1 * GRID_COLS + p.2) RegionKind.serial
      · exact ⟨_, rfl⟩
      · exact absurd h (hok _ _)
    obtain ⟨e, he⟩ : ∃ e, o (p.1 * GRID_COLS + p.2) RegionKind.epic = .ok e := by
      cases h : o (p.1 * GRID_COLS + p.2) RegionKind.epic
      · exact ⟨_, rfl⟩
      · exact absurd h (hok _ _)
    obtain ⟨t, ht⟩ : ∃ t, o (p.1 * GRID_COLS + p.2) RegionKind.text = .ok t := by
      cases h : o (p.1 * GRID_COLS + p.2) RegionKind.text
      · exact ⟨_, rfl⟩
      · exact absurd h (hok _ _)
    simp [eraseValid, fastRecord, pyRecord, fastTileTexts, hs, he, ht, ocr_region,
      stripStr_idem]
  · intro page o row col h
    cases ho1 : o (row * GRID_COLS + col) RegionKind.serial with
    | err =>
      rw [pyRecord] at h
      simp [ocr_region, ho1, pyValid, stripStr,
        show pyStripChars [] = [] from rfl] at h
    | ok s =>
      cases ho2 : o (row * GRID_COLS + col) RegionKind.epic with
      | err =>
        rw [pyRecord] at h
        simp [ocr_region, ho2, pyValid, stripStr,
          show pyStripChars [] = [] from rfl] at h
      | ok e =>
        cases ho3 : o (row * GRID_COLS + col) RegionKind.text with
        | err =>
          rw [pyRecord] at h
          simp [ocr_region, ho3, pyValid, stripStr,
            show pyStripChars [] = [] from rfl] at h
        | ok t =>
          rw [pyRecord] at h
          simp only [ocr_region, ho1, ho2, ho3, pyValid, Bool.and_eq_true,
            decide_eq_true_eq, stripStr_idem] at h
          rw [fastRecord]
          simp only [fastTileTexts, ho1, ho2, ho3, fastValid, Bool.or_eq_true,
            decide_eq_true_eq]
          exact Or.inl h.1.2

/-- C4 witness: the two pipelines agree up to the validity flag on the
err-free one-tile-page scenario. -/
theorem c4_backend_equivalence_witness :
    (fast_process_page "p" 320 163 longTextOracle).map eraseValid =
      (py_process_page "p" 320 163 longTextOracle).map eraseValid :=
  c4_backend_equivalence.1 "p" 320 163 longTextOracle (fun n k => by
    cases k <;> simp [longTextOracle])

/-! ### Claim C7 -/

/-- Recognition oracle: serial and EPIC calls succeed, the text call fails. -/
def failTextOracle : Oracle := fun _ k =>
  match k with
  | .serial => .ok "123"
  | .epic => .ok "ABC1234"
  | .text => .err

/-- C7 counterexample: in the persistent-engine pipeline a failure of the
text call wipes the already-recognized serial "123" and EPIC of the same
tile to "", so a failure is not confined to its own region. -/
theorem c7_region_failure_counterexample :
    failTextOracle 0 RegionKind.serial = RecogOutcome.ok "123" ∧
    failTextOracle 0 RegionKind.text = RecogOutcome.err ∧
    (fastRecord "p" failTextOracle 0 0).serial = "" ∧
    (fastRecord "p" failTextOracle 0 0).epic = "" := by
  exact ⟨rfl, rfl, by decide, by decide⟩

/-- C7 amended: a worker-pool recognition failure degrades to empty text
with `success = false` and each worker-pool region value depends only on its
own region's outcome; in the persistent-engine pipeline a failure anywhere
in a tile empties all three texts of that tile.  In both pipelines a record
depends only on its own tile's outcomes, and no failure is page-fatal: the
emitted record ids are independent of the oracle. -/
theorem c7_failure_isolation :
    (ocr_region RecogOutcome.err = { text := "", success := false })
    ∧ (∀ page o o' row col,
        o (row * GRID_COLS + col) RegionKind.serial =
          o' (row * GRID_COLS + col) RegionKind.serial →
        (pyRecord page o row col).serial = (pyRecord page o' row col).serial)
    ∧ (∀ (o : Oracle) n, (o n RegionKind.serial = RecogOutcome.err ∨
        o n RegionKind.epic = RecogOutcome.err ∨ o n RegionKind.text = RecogOutcome.err) →
        fastTileTexts o n = ("", "", ""))
    ∧ (∀ page o o' row col,
        (∀ k, o (row * GRID_COLS + col) k = o' (row * GRID_COLS + col) k) →
        fastRecord page o row col = fastRecord page o' row col ∧
        pyRecord page o row col = pyRecord page o' row col)
    ∧ (∀ page w h o o',
        (fast_process_page page w h o).map (fun r => r.record_id) =
          (fast_process_page page w h o').map (fun r => r.record_id) ∧
        (py_process_page page w h o).map (fun r => r.record_id) =
          (py_process_page page w h o').map (fun r => r.record_id)) := by
  refine ⟨rfl, ?_, ?_, ?_, ?_⟩
  · intro page o o' row col h
    show stripStr (ocr_region (o (row * GRID_COLS + col) RegionKind.serial)).text =
      stripStr (ocr_region (o' (row * GRID_COLS + col) RegionKind.serial)).text
    rw [h]
  · intro o n hfail
    cases h1 : o n RegionKind.serial with
    | err => simp [fastTileTexts, h1]
    | ok s =>
      cases h2 : o n RegionKind.epic with
      | err => simp [fastTileTexts, h1, h2]
      | ok e =>
        cases h3 : o n RegionKind.text with
        | err => simp [fastTileTexts, h1, h2, h3]
        | ok t =>
          rcases hfail with hf | hf | hf
          · rw [hf] at h1
            exact absurd h1 (by simp)
          · rw [hf] at h2
            exact absurd h2 (by simp)
          · rw [hf] at h3
            exact absurd h3 (by simp)
  · intro page o o' row col h
    constructor
    · simp only [fastRecord, fastTileTexts, h RegionKind.serial, h RegionKind.epic,
        h RegionKind.text]
    · simp only [pyRecord, h RegionKind.serial, h RegionKind.epic, h RegionKind.text]
  · intro page w h o o'
    constructor
    · unfold fast_process_page
      rw [List.map_map, List.map_map]
      apply List.map_congr_left
      intro p _
      rfl
    · unfold py_process_page
      rw [List.map_map, List.map_map]
      apply List.map_congr_left
      intro p _
      rfl

/-- C7 witness: the whole-tile wipe at the failing oracle. -/
theorem c7_failure_isolation_witness :
    fastTileTexts failTextOracle 0 = ("", "", "") :=
  c7_failure_isolation.2.2.1 failTextOracle 0 (Or.inr (Or.inr rfl))

/-! ### Claim C8 -/

/-- C8 counterexample: a run that emits zero records produces no header row
at all — the fast pipeline writes an empty file and the decoupled parser
writes no file. -/
theorem c8_header_counterexample :
    writePageCsv [] = [] ∧ writeParseCsv [] = [] :=
  ⟨rfl, rfl⟩

/-- C8 amended: whenever at least one record is emitted, the output starts
with the fixed header row, and every data row has exactly the header's
number of columns; with zero records no header (and no row) is written. -/
theorem c8_header :
    (∀ recs : List PageRecord, recs ≠ [] →
        (writePageCsv recs).head? = some pageCsvFieldnames)
    ∧ (∀ recs : List DecRecord, recs ≠ [] →
        (writeParseCsv recs).head? = some parseCsvFieldnames)
    ∧ (∀ r : PageRecord, (pageRecordRow r).length = pageCsvFieldnames.length)
    ∧ (∀ r : DecRecord, (decRecordRow r).length = parseCsvFieldnames.length) := by
  refine ⟨?_, ?_, fun r => rfl, fun r => rfl⟩
  · intro recs h
    rw [writePageCsv, if_neg (by simpa [List.isEmpty_iff] using h)]
    rfl
  · intro recs h
    rw [writeParseCsv, if_neg (by simpa [List.isEmpty_iff] using h)]
    rfl

/-- C8 witness: one emitted record yields the header as the first line. -/
theorem c8_header_witness :
    (writePageCsv [fastRecord "p" longTextOracle 0 0]).head? = some pageCsvFieldnames :=
  c8_header.1 [fastRecord "p" longTextOracle 0 0] (by simp)

/-! ### Claim C9 -/

/-- A stripped OCR text with internal double spaces after the label. -/
def rawLabelText : String := "नाम:  A  B xxxxxxxxxx"

/-- Recognition oracle delivering `rawLabelText` as the tile text. -/
def doubleSpaceOracle : Oracle := fun _ k =>
  match k with
  | .serial => .ok ""
  | .epic => .ok ""
  | .text => .ok rawLabelText

/-- C9 counterexample: the fast pipeline extracts the name "A  B xxxxxxxxxx"
from the raw tile text, while extraction after cleaning would give
"A B xxxxxxxxxx" — so `parse_hindi_text` is applied without the pre-cleaning
normalization, refuting "this normalization runs before every pattern
application". -/
theorem c9_cleaning_counterexample :
    (fastRecord "p" doubleSpaceOracle 0 0).raw_text = rawLabelText ∧
    (fastRecord "p" doubleSpaceOracle 0 0).name = "A  B xxxxxxxxxx" ∧
    (parse_hindi_text (clean_text rawLabelText)).name = "A B xxxxxxxxxx" ∧
    (fastRecord "p" doubleSpaceOracle 0 0).name ≠
      (parse_hindi_text (clean_text (fastRecord "p" doubleSpaceOracle 0 0).raw_text)).name := by
  exact ⟨by decide, by decide, by decide, by decide⟩

/-- C9 amended: cleaning precedes every pattern application inside
`parse_tile` and cleaning-plus-extraction is idempotent — cleaning is
idempotent, re-running `parse_tile` on already-cleaned text changes nothing,
and re-cleaning changes no extracted field; the page pipelines'
`parse_hindi_text`, however, runs on raw text (see the counterexample). -/
theorem c9_cleaning_idempotent :
    (∀ s, clean_text (clean_text s) = clean_text s)
    ∧ (∀ strict t id, parse_tile strict (clean_text t) id = parse_tile strict t id)
    ∧ (∀ t id, tileExtract (clean_text (clean_text t)) id = tileExtract (clean_text t) id) := by
  refine ⟨clean_text_idem, ?_, ?_⟩
  · intro strict t id
    rw [parse_tile_eq, parse_tile_eq, clean_text_idem]
  · intro t id
    rw [clean_text_idem]

/-! ### Claims C6 and C10 -/

/-- A status entry whose file holds "INVALID". -/
def skipEntry : StatusEntry :=
  { record_id := "record_01", statusFile := some "INVALID"
    files := { serialF := none, epicF := none, textF := none } }

/-- C6: a record is attempted for parsing iff its (stripped) status file
content is exactly "VALID"; an unreadable status file reads as "UNKNOWN";
any other status counts the tile in `skipped_tiles` only and leaves the
records and `invalid_records` untouched, and the outcome is then independent
of the per-region text files, which are therefore never parsed; a VALID
status hands the record to `parse_record`, whose outcome alone decides
valid/invalid. -/
theorem c6_status_gate :
    (∀ rid files, statusOf { record_id := rid, statusFile := none, files := files } =
        "UNKNOWN")
    ∧ (∀ page_id st recs e, statusOf e ≠ "VALID" →
        processEntry page_id (st, recs) e =
          ({ st with
              total_tiles := st.total_tiles + 1
              skipped_tiles := st.skipped_tiles + 1 }, recs))
    ∧ (∀ page_id st recs e files', statusOf e ≠ "VALID" →
        processEntry page_id (st, recs) e =
          processEntry page_id (st, recs) { e with files := files' })
    ∧ (∀ page_id st recs e, statusOf e = "VALID" →
        processEntry page_id (st, recs) e =
          (match parse_record e.files e.record_id with
           | some r =>
             ({ st with
                 total_tiles := st.total_tiles + 1
                 valid_records := st.valid_records + 1 },
               recs ++ [{ r with page_id := page_id }])
           | none =>
             ({ st with
                 total_tiles := st.total_tiles + 1
                 invalid_records := st.invalid_records + 1 }, recs))) := by
  refine ⟨fun rid files => rfl, ?_, ?_, ?_⟩
  · intro page_id st recs e h
    unfold processEntry
    rw [if_pos (bne_iff_ne.mpr h)]
  · intro page_id st recs e files' h
    unfold processEntry
    rw [if_pos (bne_iff_ne.mpr h),
      if_pos (bne_iff_ne.mpr
        (show statusOf { e with files := files' } ≠ "VALID" from h))]
  · intro page_id st recs e h
    unfold processEntry
    rw [if_neg (by simp [h])]

/-- C6 witness: an "INVALID" entry is skipped. -/
theorem c6_status_gate_witness :
    processEntry "page" (initStats, []) skipEntry =
      ({ initStats with total_tiles := 1, skipped_tiles := 1 }, []) :=
  c6_status_gate.2.1 "page" initStats [] skipEntry (by decide)

/-- The accounting identity of the statistics counters. -/
def statsInvariant (s : Stats) : Prop :=
  s.total_tiles = s.valid_records + s.invalid_records + s.skipped_tiles

theorem processEntry_step (page_id : String) (st : Stats × List DecRecord)
    (e : StatusEntry) :
    (processEntry page_id st e).1.total_tiles = st.1.total_tiles + 1 ∧
    (processEntry page_id st e).1.valid_records +
        (processEntry page_id st e).1.invalid_records +
        (processEntry page_id st e).1.skipped_tiles =
      st.1.valid_records + st.1.invalid_records + st.1.skipped_tiles + 1 ∧
    st.1.valid_records ≤ (processEntry page_id st e).1.valid_records ∧
    st.1.invalid_records ≤ (processEntry page_id st e).1.invalid_records ∧
    st.1.skipped_tiles ≤ (processEntry page_id st e).1.skipped_tiles := by
  unfold processEntry
  by_cases h : (statusOf e != "VALID") = true
  · rw [if_pos h]
    refine ⟨rfl, ?_, ?_, ?_, ?_⟩ <;> (dsimp only; omega)
  · rw [if_neg h]
    cases parse_record e.files e.record_id with
    | some r => refine ⟨rfl, ?_, ?_, ?_, ?_⟩ <;> (dsimp only; omega)
    | none => refine ⟨rfl, ?_, ?_, ?_, ?_⟩ <;> (dsimp only; omega)

theorem vp_fold_stats :
    ∀ (entries : List StatusEntry) (page_id : String) (st : Stats × List DecRecord),
      (statsInvariant st.1 → statsInvariant (vp_process_page page_id st entries).1) ∧
      (st.1.total_tiles ≤ (vp_process_page page_id st entries).1.total_tiles ∧
       st.1.valid_records ≤ (vp_process_page page_id st entries).1.valid_records ∧
       st.1.invalid_records ≤ (vp_process_page page_id st entries).1.invalid_records ∧
       st.1.skipped_tiles ≤ (vp_process_page page_id st entries).1.skipped_tiles)
  | [], page_id, st => ⟨fun h => h, le_refl _, le_refl _, le_refl _, le_refl _⟩
  | e :: es, page_id, st => by
    obtain ⟨s1, s2, s3, s4, s5⟩ := processEntry_step page_id st e
    obtain ⟨ih1, i1, i2, i3, i4⟩ := vp_fold_stats es page_id (processEntry page_id st e)
    have hfold : vp_process_page page_id st (e :: es) =
        vp_process_page page_id (processEntry page_id st e) es := by
      unfold vp_process_page
      rw [List.foldl_cons]
    rw [hfold]
    constructor
    · intro hinv
      apply ih1
      unfold statsInvariant at hinv ⊢
      omega
    · exact ⟨by omega, by omega, by omega, by omega⟩

/-- C10: across any sequence of processed status entries the counters
satisfy `total_tiles = valid_records + invalid_records + skipped_tiles`
(starting from the zero-initialized stats, which satisfy it); each entry
increments `total_tiles` and exactly one of the other three counters; no
counter is ever decremented. -/
theorem c10_stats_accounting :
    (∀ page_id st recs entries, statsInvariant st →
        statsInvariant (vp_process_page page_id (st, recs) entries).1)
    ∧ (∀ page_id st (recs : List DecRecord) e,
        (processEntry page_id (st, recs) e).1.total_tiles = st.total_tiles + 1 ∧
        (processEntry page_id (st, recs) e).1.valid_records +
            (processEntry page_id (st, recs) e).1.invalid_records +
            (processEntry page_id (st, recs) e).1.skipped_tiles =
          st.valid_records + st.invalid_records + st.skipped_tiles + 1)
    ∧ (∀ page_id st (recs : List DecRecord) entries,
        st.total_tiles ≤ (vp_process_page page_id (st, recs) entries).1.total_tiles ∧
        st.valid_records ≤ (vp_process_page page_id (st, recs) entries).1.valid_records ∧
        st.invalid_records ≤
          (vp_process_page page_id (st, recs) entries).1.invalid_records ∧
        st.skipped_tiles ≤ (vp_process_page page_id (st, recs) entries).1.skipped_tiles)
    ∧ statsInvariant initStats := by
  refine ⟨?_, ?_, ?_, rfl⟩
  · intro page_id st recs entries hinv
    exact (vp_fold_stats entries page_id (st, recs)).1 hinv
  · intro page_id st recs e
    obtain ⟨s1, s2, _⟩ := processEntry_step page_id (st, recs) e
    exact ⟨s1, s2⟩
  · intro page_id st recs entries
    exact (vp_fold_stats entries page_id (st, recs)).2

/-- C10 witness: the invariant holds after processing one skipped entry from
the initial stats. -/
theorem c10_stats_accounting_witness :
    statsInvariant (vp_process_page "page" (initStats, []) [skipEntry]).1 :=
  c10_stats_accounting.1 "page" initStats [] [skipEntry] rfl

end S1R
